import Mathlib

/-!
Verification development for the `redirector` HTTP redirect router.

The Go sources (`main.go` and the single-file variant) are shallowly embedded
below.  Pure Go functions become Lean functions on `String` / `List Char`;
the pieces of the Go standard library that the program calls
(`strings.Trim`, `strings.HasPrefix`, `strconv.Atoi`, `path.Join`,
`net/url.Parse`, `url.URL.String`) are modelled faithfully on the subset of
inputs the program can feed them (no percent-escapes, userinfo, opaque URLs
or fragments).  The radix pattern trie (`github.com/fanyang01/radix`) is a
vendored dependency whose source is not part of this repository; it is
modelled from the specification of the pattern matcher.
-/

set_option autoImplicit false

namespace Redirector

/-! ## Character and string helpers -/

def isAlpha (c : Char) : Bool := ('a' ≤ c ∧ c ≤ 'z') ∨ ('A' ≤ c ∧ c ≤ 'Z')

def isDigit (c : Char) : Bool := '0' ≤ c ∧ c ≤ '9'

/-- ASCII lower-casing of one character, as Go `strings.ToLower` does for ASCII. -/
def lowerChar (c : Char) : Char :=
  if 'A' ≤ c ∧ c ≤ 'Z' then Char.ofNat (c.toNat + 32) else c

def lowerStr (l : List Char) : List Char := l.map lowerChar

/-- Split a character list at the first occurrence of `sep`; `none` when absent. -/
def splitOnFirst (sep : Char) : List Char → Option (List Char × List Char)
  | [] => none
  | c :: rest =>
    if c = sep then some ([], rest)
    else (splitOnFirst sep rest).map (fun p => (c :: p.1, p.2))

/-- Model of Go `strings.Split(s, sep)` for a one-character separator
(the second argument accumulates the current field). -/
def splitCharL (sep : Char) : List Char → List Char → List String
  | [], cur => [String.mk cur.reverse]
  | c :: rest, cur =>
    if c = sep then String.mk cur.reverse :: splitCharL sep rest []
    else splitCharL sep rest (c :: cur)

def splitChar (sep : Char) (s : String) : List String := splitCharL sep s.data []

/-- Model of Go `strings.Trim(s, cutset)`: drop every leading and trailing
character that occurs in `cutset`. -/
def goTrim (s cutset : String) : String :=
  let f : Char → Bool := fun c => cutset.data.contains c
  String.mk (((s.data.dropWhile f).reverse.dropWhile f).reverse)

/-- List-level prefix removal: `some rest` when `pre` is a prefix. -/
def dropPreL : List Char → List Char → Option (List Char)
  | [], l => some l
  | _, [] => none
  | p :: ps, c :: cs => if c = p then dropPreL ps cs else none

/-- Model of Go `strings.HasPrefix`. -/
def goHasPre (s pre : String) : Bool := (dropPreL pre.data s.data).isSome

/-- Model of Go `strings.TrimPrefix`. -/
def goTrimPre (s pre : String) : String :=
  match dropPreL pre.data s.data with
  | some rest => String.mk rest
  | none => s

/-! ## Model of Go `strconv.Atoi` -/

def digitVal (c : Char) : Option Nat :=
  if '0' ≤ c ∧ c ≤ '9' then some (c.toNat - '0'.toNat) else none

def digitsToNatAux : Nat → List Char → Option Nat
  | acc, [] => some acc
  | acc, c :: r =>
    match digitVal c with
    | none => none
    | some d => digitsToNatAux (acc * 10 + d) r

/-- Value of a nonempty all-digit character list (`none` otherwise). -/
def digitsToNat : List Char → Option Nat
  | [] => none
  | l => digitsToNatAux 0 l

/-- Model of Go `strconv.Atoi`: optional sign, nonempty digit run, 64-bit
signed range (`ParseInt` bit size 64). -/
def goAtoi (s : String) : Option Int :=
  let p : Bool × List Char :=
    match s.data with
    | '+' :: r => (false, r)
    | '-' :: r => (true, r)
    | r => (false, r)
  match digitsToNat p.2 with
  | none => none
  | some n =>
    let v : Int := if p.1 then -(n : Int) else (n : Int)
    if v < -(2 ^ 63) ∨ (2 ^ 63 : Int) ≤ v then none else some v

/-! ## Model of Go `path.Clean` and `path.Join` -/

/-- Core of Go `path.Clean`: process the `/`-separated segments (`""` and
`"."` already removed) resolving `".."` against the accumulated output. -/
def cleanSegsAux (rooted : Bool) : List String → List String → List String
  | acc, [] => acc.reverse
  | acc, s :: rest =>
    if s = ".." then
      match acc with
      | [] => if rooted then cleanSegsAux rooted [] rest else cleanSegsAux rooted [".."] rest
      | a :: tl =>
        if a = ".." then cleanSegsAux rooted (s :: a :: tl) rest
        else cleanSegsAux rooted tl rest
    else cleanSegsAux rooted (s :: acc) rest

def joinSep (sep : String) : List String → String
  | [] => ""
  | [s] => s
  | s :: rest => s ++ sep ++ joinSep sep rest

/-- Model of Go `path.Clean`. -/
def pathClean (p : String) : String :=
  if p = "" then "." else
  let rooted := p.data.head? = some '/'
  let parts := (splitChar '/' p).filter (fun s => ¬(s = "" ∨ s = "."))
  let out := cleanSegsAux rooted [] parts
  let joined := joinSep "/" out
  if rooted then "/" ++ joined
  else if joined = "" then "." else joined

/-- Model of Go `path.Join` on two elements: empty elements are skipped and
the `/`-joined result is cleaned; all-empty input yields `""`. -/
def pathJoin (a b : String) : String :=
  if a = "" ∧ b = "" then ""
  else if a = "" then pathClean b
  else if b = "" then pathClean a
  else pathClean (a ++ "/" ++ b)

/-! ## Model of Go `net/url.Parse` (the subset the program exercises) -/

structure URL where
  scheme : String
  host : String
  path : String
  rawQuery : String
deriving DecidableEq

inductive SchemeRes where
  | err
  | noScheme
  | found (scheme rest : List Char)

/-- Core of Go `getScheme`: letters continue a scheme; digits and `+ - .` may
continue but not start one; a `:` ends it (an immediate `:` is an error); any
other character means the input has no scheme. -/
def getSchemeAux : List Char → List Char → SchemeRes
  | _, [] => .noScheme
  | acc, c :: rest =>
    if isAlpha c then getSchemeAux (c :: acc) rest
    else if isDigit c ∨ c = '+' ∨ c = '-' ∨ c = '.' then
      if acc = [] then .noScheme else getSchemeAux (c :: acc) rest
    else if c = ':' then
      if acc = [] then .err else .found acc.reverse rest
    else .noScheme

def getScheme (l : List Char) : SchemeRes := getSchemeAux [] l

/-- Split at the last occurrence of `sep`. -/
def splitOnLast (sep : Char) (l : List Char) : Option (List Char × List Char) :=
  match splitOnFirst sep l.reverse with
  | none => none
  | some p => some (p.2.reverse, p.1.reverse)

/-- Go `parseHost` checks on the authority, restricted to the modelled subset:
no userinfo, IPv6 literal or percent-escape, and an optional `:port` suffix
(after the last colon) must be all digits. -/
def validAuthority (auth : List Char) : Bool :=
  !(auth.contains '@' || auth.contains '[' || auth.contains ']' || auth.contains '%') &&
  (match splitOnLast ':' auth with
   | none => true
   | some p => p.2.all isDigit)

/-- Cut at the first `/`, keeping it on the right-hand side. -/
def cutAtSlash : List Char → List Char × List Char
  | [] => ([], [])
  | c :: rest =>
    if c = '/' then ([], c :: rest)
    else
      let p := cutAtSlash rest
      (c :: p.1, p.2)

def startsWith2Slash : List Char → Bool
  | '/' :: '/' :: _ => true
  | _ => false

def startsWith3Slash : List Char → Bool
  | '/' :: '/' :: '/' :: _ => true
  | _ => false

/-- Model of Go `url.Parse` on the subset of URLs the program exercises:
control characters, opaque URLs (`scheme:` not followed by `/`), userinfo,
IPv6 hosts and percent-escapes are rejected (`none`); the fragment is cut off
and discarded; the scheme is lower-cased; the query is cut at the first `?`
and kept raw; an authority follows `//`. -/
def urlParse (s : String) : Option URL :=
  let l0 := s.data
  if l0.any (fun c => c.toNat < 32 ∨ c.toNat = 127) then none else
  let l :=
    match splitOnFirst '#' l0 with
    | some p => p.1
    | none => l0
  match getScheme l with
  | .err => none
  | res =>
    let sr : List Char × List Char :=
      match res with
      | .found sc r => (sc, r)
      | _ => ([], l)
    let scheme := sr.1
    let rq : List Char × List Char :=
      match splitOnFirst '?' sr.2 with
      | some p => p
      | none => (sr.2, [])
    let rest := rq.1
    let query := rq.2
    if scheme ≠ [] ∧ rest.head? ≠ some '/' then none
    else if scheme = [] ∧ rest.head? ≠ some '/' ∧ (rest.takeWhile (fun c => c ≠ '/')).contains ':' then
      none
    else if (scheme ≠ [] ∨ ¬startsWith3Slash rest) ∧ startsWith2Slash rest then
      let ap := cutAtSlash (rest.drop 2)
      if validAuthority ap.1 ∧ ¬ap.2.contains '%' then
        some ⟨String.mk (lowerStr scheme), String.mk ap.1, String.mk ap.2, String.mk query⟩
      else none
    else if rest.contains '%' then none
    else some ⟨String.mk (lowerStr scheme), "", String.mk rest, String.mk query⟩

/-- Model of Go `url.URL.String` for the modelled subset (no opaque part,
userinfo or fragment). -/
def urlString (u : URL) : String :=
  (if u.scheme ≠ "" then u.scheme ++ ":" else "") ++
  (if (u.scheme ≠ "" ∨ u.host ≠ "") ∧ (u.host ≠ "" ∨ u.path ≠ "") then "//" ++ u.host else "") ++
  (if u.path ≠ "" ∧ u.path.data.head? ≠ some '/' ∧ u.host ≠ "" then "/" else "") ++
  u.path ++
  (if u.rawQuery ≠ "" then "?" ++ u.rawQuery else "")

/-- Destination handling in `NewRoute` / `parseRoute`: a missing scheme
defaults to `https`; an empty host takes over the parsed path. -/
def fixDest (u : URL) : URL :=
  let u1 := if u.scheme = "" then { u with scheme := "https" } else u
  if u1.host = "" then { u1 with host := u1.path, path := "" } else u1

def parseDest (s : String) : Option URL := (urlParse s).map fixDest

/-! ## Route parsing (`NewRoute` in `main.go`, `parseRoute` in the variant) -/

structure Route where
  Pattern : String
  Destination : URL
  Code : Int
  CarryPath : Bool
  CarryQuery : Bool
deriving DecidableEq

deriving instance DecidableEq for Except

/-- One iteration of the flag loop over `parts[2:]`. -/
def applyFlag (r : Route) (part : String) : Except String Route :=
  if part = "path" then .ok { r with CarryPath := true }
  else if part = "query" then .ok { r with CarryQuery := true }
  else if goHasPre part "code=" then
    match goAtoi (goTrimPre part "code=") with
    | none => .error "parsing code"
    | some n => .ok { r with Code := n }
  else .ok r

def applyFlags (r : Route) : List String → Except String Route
  | [] => .ok r
  | p :: ps =>
    match applyFlag r p with
    | .error e => .error e
    | .ok r1 => applyFlags r1 ps

/-- Function `NewRoute` after tokenization: at least a pattern and a destination token,
destination parsed and fixed up, defaults `302 / false / false`, then flags. -/
def NewRouteFromParts (parts : List String) : Except String Route :=
  match parts with
  | p0 :: p1 :: rest =>
    match parseDest p1 with
    | none => .error "parsing destination"
    | some u =>
      applyFlags { Pattern := p0, Destination := u, Code := 302,
                   CarryPath := false, CarryQuery := false } rest
  | _ => .error "route must have at least a source and a destination"

/-! ## Model of `shellquote.Split` (github.com/kballard/go-shellquote) -/

inductive SQMode where
  | raw
  | single
  | double

def isSplitChar (c : Char) : Bool := c = ' ' ∨ c = '\n' ∨ c = '\t'

/-- Characters a backslash may escape inside double quotes
(dollar, backquote, double quote, newline, backslash). -/
def isDoubleEscape (c : Char) : Bool :=
  c = '$' ∨ c.toNat = 96 ∨ c = '"' ∨ c = '\n' ∨ c = '\\'

/-- Model of `splitWord`: consume one word from the input, handling backslash escapes
and single/double quoting; `none` on an unterminated escape or quote.  Returns
the word and the unconsumed remainder.  The fuel argument (first) exceeds the
number of steps (every step consumes at least one input character). -/
def splitWordAux : Nat → SQMode → List Char → List Char → Option (String × List Char)
  | 0, _, _, _ => none
  | _ + 1, .raw, acc, [] => some (String.mk acc.reverse, [])
  | fuel + 1, .raw, acc, c :: rest =>
    if c = '\'' then splitWordAux fuel .single acc rest
    else if c = '"' then splitWordAux fuel .double acc rest
    else if c = '\\' then
      match rest with
      | [] => none
      | c2 :: rest2 =>
        if c2 = '\n' then splitWordAux fuel .raw acc rest2
        else splitWordAux fuel .raw (c2 :: acc) rest2
    else if isSplitChar c then some (String.mk acc.reverse, c :: rest)
    else splitWordAux fuel .raw (c :: acc) rest
  | _ + 1, .single, _, [] => none
  | fuel + 1, .single, acc, c :: rest =>
    if c = '\'' then splitWordAux fuel .raw acc rest
    else splitWordAux fuel .single (c :: acc) rest
  | _ + 1, .double, _, [] => none
  | fuel + 1, .double, acc, c :: rest =>
    if c = '"' then splitWordAux fuel .raw acc rest
    else if c = '\\' then
      match rest with
      | [] => none
      | c2 :: rest2 =>
        if isDoubleEscape c2 then
          splitWordAux fuel .double (if c2 = '\n' then acc else c2 :: acc) rest2
        else splitWordAux fuel .double (c2 :: '\\' :: acc) rest2
    else splitWordAux fuel .double (c :: acc) rest

/-- Outer loop of `Split`: skip split characters, elide a backslash-newline,
and read words.  The fuel argument exceeds the number of loop iterations
(every iteration consumes at least one character). -/
def splitWordsAux : Nat → List Char → Option (List String)
  | 0, _ => none
  | _ + 1, [] => some []
  | fuel + 1, c :: rest =>
    if isSplitChar c then splitWordsAux fuel rest
    else if c = '\\' ∧ rest.head? = some '\n' then splitWordsAux fuel rest.tail
    else if c = '\\' ∧ rest = [] then none
    else
      match splitWordAux (rest.length + 2) .raw [] (c :: rest) with
      | none => none
      | some wr =>
        match splitWordsAux fuel wr.2 with
        | none => none
        | some ws => some (wr.1 :: ws)

def shellSplit (s : String) : Option (List String) :=
  splitWordsAux (s.data.length + 1) s.data

/-- Function `NewRoute` (`main.go`) / `parseRoute` (single-file variant). -/
def NewRoute (s : String) : Except String Route :=
  match shellSplit s with
  | none => .error "tokenizing route"
  | some parts => NewRouteFromParts parts

/-! ## Redirect execution and request-key construction -/

/-- Method `Route.Execute` from `main.go`: `dest := r.Destination` copies the
pointer, so the carry-path / carry-query updates write through to the shared
Route's stored destination.  Returns the Route as stored after the call,
the emitted `Location` value, and the status code. -/
def RouteExecute (r : Route) (reqPath reqRawQuery : String) : Route × String × Int :=
  let d1 :=
    if r.CarryPath then { r.Destination with path := pathJoin r.Destination.path reqPath }
    else r.Destination
  let d2 := if r.CarryQuery then { d1 with rawQuery := reqRawQuery } else d1
  ({ r with Destination := d2 }, urlString d2, r.Code)

/-- Method `route.Execute` from the single-file variant: `dest := *r.dest` takes a
value copy, so the stored route is untouched. -/
def routeExecuteCopy (r : Route) (reqPath reqRawQuery : String) : Route × String × Int :=
  let d1 :=
    if r.CarryPath then { r.Destination with path := pathJoin r.Destination.path reqPath }
    else r.Destination
  let d2 := if r.CarryQuery then { d1 with rawQuery := reqRawQuery } else d1
  (r, urlString d2, r.Code)

/-- Function `requestToRoutePattern`: `r.Host + "/" + strings.Trim(r.URL.Path, "/")`. -/
def requestToRoutePattern (host reqPath : String) : String :=
  host ++ "/" ++ goTrim reqPath "/"

/-! ## The pattern matcher (modelled from the spec) -/

/-- The route table: pattern string to Route, in insertion order. -/
abbrev Table := List (String × Route)

/-- Modelled from the spec: `PatternTrie.Add` of `github.com/fanyang01/radix`,
a dependency whose source is not in this repository.  Per spec §3/§4.1,
inserting a pattern already present fails and leaves the table unchanged;
the returned flag reports whether the pattern was already present. -/
def trieAdd (t : Table) (pat : String) (r : Route) : Table × Bool :=
  if t.any (fun e => e.1 == pat) then (t, true) else (t ++ [(pat, r)], false)

/-- Match pattern segments against key segments: a trailing `*` consumes the
remainder of the key; otherwise segments must agree literally.  Returns the
number of literally matched segments (the match's specificity). -/
def segsMatch : List String → List String → Option Nat
  | ["*"], _ => some 0
  | [], [] => some 0
  | p :: ps, k :: ks =>
    if p = k ∧ p ≠ "*" then (segsMatch ps ks).map (fun n => n + 1) else none
  | _, _ => none

def wildcardBest (cands : List (Nat × Route)) : Option (Nat × Route) :=
  cands.foldl
    (fun best c =>
      match best with
      | none => some c
      | some b => if b.1 < c.1 then some c else some b)
    none

/-- Modelled from the spec: `PatternTrie.Lookup` (§4.1).  An exact pattern
match is preferred over wildcard matches; among wildcard matches the most
specific (most literal segments) wins, earliest insertion breaking ties. -/
def lookup (t : Table) (key : String) : Option Route :=
  match t.find? (fun e => e.1 == key) with
  | some e => some e.2
  | none =>
    (wildcardBest (t.filterMap (fun e =>
      (segsMatch (splitChar '/' e.1) (splitChar '/' key)).map (fun n => (n, e.2))))).map
      (fun p => p.2)

/-- Method `Redirector.AddRoute`: insert into the matcher, surfacing a duplicate
pattern as an error. -/
def AddRoute (t : Table) (route : Route) : Except String Table :=
  let p := trieAdd t route.Pattern route
  if p.2 then .error "route already exists" else .ok p.1

/-! ## The HTTP handler -/

inductive Response where
  | redirect (code : Int) (location : String)
  | notFound
  | fallback
  | internalErr
deriving DecidableEq

/-- Method `Redirector.Handler`: build the lookup key, look it up; a miss goes to
the default handler when registered and 404 otherwise; a hit executes the
route (whose stored destination the execution may mutate — the returned
table is the table as stored after the call). -/
def Handler (t : Table) (hasDefault : Bool) (host reqPath rawQuery : String) :
    Response × Table :=
  let pat := requestToRoutePattern host reqPath
  match lookup t pat with
  | none => (if hasDefault then .fallback else .notFound, t)
  | some r =>
    let res := RouteExecute r reqPath rawQuery
    (.redirect res.2.2 res.2.1, t.map (fun e => if e.2 = r then (e.1, res.1) else e))

/-! ## Startup (`main`) and the wrap-mode supervisor -/

inductive ChildOutcome where
  | exited (status : Nat)
  | killed (sig : Nat)
  | spawnFailure

inductive RunErr where
  | exit (code : Int)
  | other

/-- The error value of Go `cmd.Run`: `nil` iff the child exited 0; an
`exec.ExitError` for a nonzero exit (whose `ExitCode()` is the status) and
for a termination by signal (whose `ExitCode()` is -1); some other error
(not an `ExitError`) when the spawn itself failed. -/
def childRunErr : ChildOutcome → Option RunErr
  | .exited 0 => none
  | .exited s => some (.exit s)
  | .killed _ => some (.exit (-1))
  | .spawnFailure => some .other

/-- Exit mirroring in `main`'s wrap goroutine: the integer handed to
`os.Exit` — no error exits 0; otherwise exit 1, except that an
`exec.ExitError` replaces 1 with the child's `ExitCode()`. -/
def wrapExitArg (c : ChildOutcome) : Int :=
  match childRunErr c with
  | none => 0
  | some (.exit s) => s
  | some .other => 1

/-- Exit status the operating system reports for `os.Exit(code)`: the low
eight bits of the code (so `os.Exit(-1)` is observed as 255). -/
def observedExitStatus (code : Int) : Nat := (code % 256).toNat

/-- The service's observed exit status after the wrapped child terminates. -/
def wrapExit (c : ChildOutcome) : Nat := observedExitStatus (wrapExitArg c)

inductive Mode where
  | plain
  | wrap (port : Nat) (hasCommand : Bool)

inductive Boot where
  | exited (code : Nat) (spawned : Bool)
  | panicked (spawned : Bool)
  | serving (t : Table) (spawned : Bool)
deriving DecidableEq

/-- The route-configuration loop in `main`: parse each spec with `NewRoute`;
on a parse error the loop prints it but still calls `re.AddRoute(r)` with the
nil route, which dereferences the nil pointer (`route.Pattern`) — a panic,
modelled as `none`.  A duplicate-pattern error sets `hasErr` and continues. -/
def bootRoutes : Table → Bool → List String → Option (Table × Bool)
  | t, hasErr, [] => some (t, hasErr)
  | t, hasErr, s :: rest =>
    match NewRoute s with
    | .error _ => none
    | .ok r =>
      let p := trieAdd t r.Pattern r
      bootRoutes p.1 (hasErr || p.2) rest

/-- After the mode switch: run the route loop; a panic aborts; any collected
route error exits 1 before `http.ListenAndServe`; otherwise serve. -/
def bootFinish (spawned : Bool) (specs : List String) : Boot :=
  match bootRoutes [] false specs with
  | none => .panicked spawned
  | some p => if p.2 then .exited 1 spawned else .serving p.1 spawned

/-- Startup sequence of `main`.  In wrap mode, a missing command or a wrapped
port whose decimal rendering (`fmt.Sprint`) equals the service-port string is
a fatal exit 1 before the child-spawning goroutine starts; the route loop
runs afterwards in either mode. -/
def boot (servicePort : String) (mode : Mode) (specs : List String) : Boot :=
  match mode with
  | .plain => bootFinish false specs
  | .wrap wport hasCmd =>
    if ¬hasCmd then .exited 1 false
    else if Nat.repr wport = servicePort then .exited 1 false
    else bootFinish true specs

/-! ## Theorems for the claims -/

/-- C1: the claim says `Route.Execute` leaves every field of the shared Route
unchanged, so consecutive requests against the same carry-path route each see
only their own path.  Evaluated at the failing input, `main.go`'s
`Route.Execute` (pointer copy of the destination) mutates the stored
destination: after a first request for `/foo`, the second request for `/bar`
gets `Location: https://example.com/foo/bar` instead of
`https://example.com/bar`.  The single-file variant's value-copy execute
(`routeExecuteCopy`) leaves the route unchanged, as the claim demands. -/
theorem c1_execute_mutates_shared_route :
    NewRoute "www.example.com/* example.com path" =
      .ok ⟨"www.example.com/*", ⟨"https", "example.com", "", ""⟩, 302, true, false⟩ ∧
    (RouteExecute
        ⟨"www.example.com/*", ⟨"https", "example.com", "", ""⟩, 302, true, false⟩
        "/foo" "").1 =
      ⟨"www.example.com/*", ⟨"https", "example.com", "/foo", ""⟩, 302, true, false⟩ ∧
    (RouteExecute
        ⟨"www.example.com/*", ⟨"https", "example.com", "/foo", ""⟩, 302, true, false⟩
        "/bar" "").2.1 = "https://example.com/foo/bar" ∧
    "https://example.com/foo/bar" ≠ "https://example.com/bar" ∧
    (routeExecuteCopy
        ⟨"www.example.com/*", ⟨"https", "example.com", "", ""⟩, 302, true, false⟩
        "/foo" "").1 =
      ⟨"www.example.com/*", ⟨"https", "example.com", "", ""⟩, 302, true, false⟩ := by
  decide

/-- C3: the configured route spec
`www.example.com/* example.com path query code=301` with a request for host
`www.example.com`, path `/foo`, query `x=1` yields status 301 and
`Location: https://example.com/foo?x=1`. -/
theorem c3_scenario_redirect :
    NewRoute "www.example.com/* example.com path query code=301" =
      .ok ⟨"www.example.com/*", ⟨"https", "example.com", "", ""⟩, 301, true, true⟩ ∧
    (Handler
        [("www.example.com/*",
          ⟨"www.example.com/*", ⟨"https", "example.com", "", ""⟩, 301, true, true⟩)]
        false "www.example.com" "/foo" "x=1").1 =
      .redirect 301 "https://example.com/foo?x=1" := by
  decide

/-- C5 counterexample: a child terminated by a signal (here SIGINT, signal
2) is a termination with no standard exit code, so the claim says the
service exits with code 1 — but `cmd.Run` returns an `exec.ExitError` whose
`ExitCode()` is -1, `main` calls `os.Exit(-1)`, and the observed exit status
is 255, not 1. -/
theorem c5_signal_kill_not_exit_1 :
    wrapExit (.killed 2) = 255 ∧ wrapExit (.killed 2) ≠ 1 ∧
    wrapExitArg (.killed 2) = -1 := by
  decide

/-- C5 (amended): when the wrapped child terminates — a clean exit (status
0) exits the service with 0; an exit with nonzero status `s` exits the
service with `s`; an abnormal termination whose `cmd.Run` error is not an
`exec.ExitError` (for example a spawn failure) exits 1; but a child
terminated by a signal produces an `exec.ExitError` with `ExitCode()` -1,
so the service calls `os.Exit(-1)` and its observed exit status is 255,
not 1. -/
theorem c5_wrap_exit_mirroring (s : Nat) (hs : s < 256) (sig : Nat) :
    wrapExit (.exited 0) = 0 ∧
    wrapExit (.exited s) = s ∧
    wrapExit .spawnFailure = 1 ∧
    wrapExitArg (.killed sig) = -1 ∧
    wrapExit (.killed sig) = 255 := by
  refine ⟨by decide, ?_, by decide, rfl, rfl⟩
  cases s with
  | zero => decide
  | succ m =>
    show ((((m + 1 : Nat) : Int)) % 256).toNat = m + 1
    omega

/-- C5 witness: the spec's scenario — the wrapped command exits with code 3
and the service exits with status 3 (and a SIGINT-killed child gives 255). -/
theorem c5_wrap_exit_mirroring_witness :
    wrapExit (.exited 3) = 3 ∧ wrapExit (.killed 2) = 255 :=
  ⟨(c5_wrap_exit_mirroring 3 (by decide) 2).2.1,
   (c5_wrap_exit_mirroring 3 (by decide) 2).2.2.2.2⟩

/-- C6: in wrap mode, a wrapped-command port equal to the service's listening
port is a fatal startup error: exit code 1, before the child-spawning
goroutine is started (`spawned = false`) and before `ListenAndServe`
(the outcome is `exited`, not `serving`). -/
theorem c6_wrap_port_collision (servicePort : String) (wport : Nat)
    (specs : List String) (h : Nat.repr wport = servicePort) :
    boot servicePort (.wrap wport true) specs = .exited 1 false := by
  simp [boot, h]

/-- C6 witness: service port 8080 with `-port 8080`. -/
theorem c6_wrap_port_collision_witness :
    boot "8080" (.wrap 8080 true) [] = .exited 1 false :=
  c6_wrap_port_collision "8080" 8080 [] (by decide)

/-- C7: the claim says any route parse or insertion error is collected and
the process exits with code 1.  The duplicate-pattern path behaves that way,
but on a parse failure `main` still calls `re.AddRoute(r)` with the nil
route, so the process panics (nil-pointer dereference) instead of exiting
with code 1; the listener is still never started. -/
theorem c7_route_error_startup :
    boot "8080" .plain ["onlyonetoken"] = .panicked false ∧
    Boot.panicked false ≠ .exited 1 false ∧
    boot "8080" .plain ["a.com/b example.com", "a.com/b example.org"] =
      .exited 1 false := by
  decide

/-- C2: inserting a route whose pattern is already present fails with an
error, leaves the table unchanged, and a subsequent lookup of that pattern
still returns the first-inserted route. -/
theorem c2_duplicate_pattern_rejected (t : Table) (r1 r2 : Route)
    (hpat : r2.Pattern = r1.Pattern)
    (hfresh : ∀ e ∈ t, e.1 ≠ r1.Pattern) :
    AddRoute t r1 = .ok (t ++ [(r1.Pattern, r1)]) ∧
    AddRoute (t ++ [(r1.Pattern, r1)]) r2 = .error "route already exists" ∧
    trieAdd (t ++ [(r1.Pattern, r1)]) r2.Pattern r2 = (t ++ [(r1.Pattern, r1)], true) ∧
    lookup (t ++ [(r1.Pattern, r1)]) r1.Pattern = some r1 := by
  have hany : t.any (fun e => e.1 == r1.Pattern) = false := by
    rw [List.any_eq_false]
    intro e he
    simpa using hfresh e he
  have hfind : t.find? (fun e => e.1 == r1.Pattern) = none := by
    rw [List.find?_eq_none]
    intro e he
    simpa using hfresh e he
  refine ⟨?_, ?_, ?_, ?_⟩
  · simp [AddRoute, trieAdd, hany]
  · simp [AddRoute, trieAdd, hpat, List.any_append, hany]
  · simp [trieAdd, hpat, List.any_append, hany]
  · simp [lookup, List.find?_append, hfind]

/-- C2 witness: an empty table, then two routes with the same pattern. -/
theorem c2_duplicate_pattern_rejected_witness :
    lookup ([] ++ [("a.com/x", ⟨"a.com/x", ⟨"https", "example.com", "", ""⟩, 302, false, false⟩)])
      "a.com/x" =
      some ⟨"a.com/x", ⟨"https", "example.com", "", ""⟩, 302, false, false⟩ ∧
    AddRoute ([] ++ [("a.com/x", ⟨"a.com/x", ⟨"https", "example.com", "", ""⟩, 302, false, false⟩)])
      ⟨"a.com/x", ⟨"https", "example.org", "", ""⟩, 301, false, false⟩ =
      .error "route already exists" :=
  ⟨(c2_duplicate_pattern_rejected []
      ⟨"a.com/x", ⟨"https", "example.com", "", ""⟩, 302, false, false⟩
      ⟨"a.com/x", ⟨"https", "example.org", "", ""⟩, 301, false, false⟩
      rfl (by simp)).2.2.2,
   (c2_duplicate_pattern_rejected []
      ⟨"a.com/x", ⟨"https", "example.com", "", ""⟩, 302, false, false⟩
      ⟨"a.com/x", ⟨"https", "example.org", "", ""⟩, 301, false, false⟩
      rfl (by simp)).2.1⟩

/-- C4: a destination that parses without a scheme gets scheme `https`; one
whose host is empty gets the parsed path as host and an empty path; a
destination that parses with scheme and host is left unchanged.  Concretely,
`example.com` becomes `https://example.com` and `http://example.com` is
unchanged. -/
theorem c4_destination_fixups :
    (∀ s u, urlParse s = some u →
      (u.scheme = "" → (fixDest u).scheme = "https") ∧
      (u.scheme ≠ "" → (fixDest u).scheme = u.scheme) ∧
      (u.host = "" → (fixDest u).host = u.path ∧ (fixDest u).path = "") ∧
      (u.host ≠ "" → (fixDest u).host = u.host ∧ (fixDest u).path = u.path) ∧
      (fixDest u).rawQuery = u.rawQuery) ∧
    parseDest "example.com" = some ⟨"https", "example.com", "", ""⟩ ∧
    parseDest "http://example.com" = some ⟨"http", "example.com", "", ""⟩ ∧
    urlParse "http://example.com" = some ⟨"http", "example.com", "", ""⟩ := by
  refine ⟨fun s u _ => ?_, by decide, by decide, by decide⟩
  by_cases hs : u.scheme = "" <;> by_cases hh : u.host = "" <;>
    simp [fixDest, hs, hh]

/-- C4 witness: instantiate at destination token `example.com`, which parses
to a URL with empty scheme and empty host. -/
theorem c4_destination_fixups_witness :
    urlParse "example.com" = some ⟨"", "", "example.com", ""⟩ ∧
    (fixDest ⟨"", "", "example.com", ""⟩).scheme = "https" ∧
    (fixDest ⟨"", "", "example.com", ""⟩).host = "example.com" ∧
    (fixDest ⟨"", "", "example.com", ""⟩).path = "" :=
  ⟨by decide,
   (c4_destination_fixups.1 "example.com" ⟨"", "", "example.com", ""⟩ (by decide)).1 rfl,
   ((c4_destination_fixups.1 "example.com" ⟨"", "", "example.com", ""⟩ (by decide)).2.2.1 rfl).1,
   ((c4_destination_fixups.1 "example.com" ⟨"", "", "example.com", ""⟩ (by decide)).2.2.1 rfl).2⟩

/-- Wrapping a list in a leading and trailing `/` does not change the
double-ended trim. -/
theorem trim_list_wrap (f : Char → Bool) (hf : f '/' = true) (l : List Char) :
    ((('/' :: (l ++ ['/'])).dropWhile f).reverse.dropWhile f).reverse =
      ((l.dropWhile f).reverse.dropWhile f).reverse := by
  rw [List.dropWhile_cons]
  rw [if_pos hf]
  rw [List.dropWhile_append]
  by_cases he : (l.dropWhile f).isEmpty
  · rw [if_pos he]
    have hl : l.dropWhile f = [] := by simpa [List.isEmpty_iff] using he
    rw [hl]
    simp [List.dropWhile, hf]
  · rw [if_neg he]
    rw [List.reverse_append]
    simp [List.dropWhile_cons, hf]

/-- Wrapping a path in a leading and trailing slash does not change
`strings.Trim(path, "/")`. -/
theorem goTrim_slash_wrap (p : String) : goTrim ("/" ++ p ++ "/") "/" = goTrim p "/" := by
  unfold goTrim
  have hdata : ("/" ++ p ++ "/").data = '/' :: (p.data ++ ['/']) := rfl
  rw [hdata]
  exact congrArg String.mk (trim_list_wrap _ (by decide) p.data)

/-- C9: the lookup key is the host, a single `/`, and the request path with
all leading and trailing `/` stripped; hence `/a/b/` and `a/b` (on any host)
produce the identical key, concretely `host/a/b`. -/
theorem c9_lookup_key_normalization (host p : String) :
    requestToRoutePattern host p = host ++ "/" ++ goTrim p "/" ∧
    requestToRoutePattern host ("/" ++ p ++ "/") = requestToRoutePattern host p ∧
    requestToRoutePattern host "/a/b/" = requestToRoutePattern host "a/b" ∧
    requestToRoutePattern host "/a/b/" = host ++ "/" ++ "a/b" := by
  refine ⟨rfl, ?_, ?_, ?_⟩
  · unfold requestToRoutePattern
    rw [goTrim_slash_wrap]
  · unfold requestToRoutePattern
    norm_num [show goTrim "/a/b/" "/" = "a/b" from by decide,
      show goTrim "a/b" "/" = "a/b" from by decide]
  · unfold requestToRoutePattern
    rw [show goTrim "/a/b/" "/" = "a/b" from by decide]

/-! ## Flag-token lemmas (for the flag loop over `parts[2:]`) -/

theorem data_code_append (s : String) :
    ("code=" ++ s).data = 'c' :: 'o' :: 'd' :: 'e' :: '=' :: s.data := rfl

theorem code_append_ne_path (s : String) : ("code=" ++ s) ≠ "path" := by
  intro h
  have h2 := congrArg String.data h
  rw [data_code_append, show ("path".data : List Char) = ['p', 'a', 't', 'h'] from rfl] at h2
  injection h2 with hc _
  exact absurd hc (by decide)

theorem code_append_ne_query (s : String) : ("code=" ++ s) ≠ "query" := by
  intro h
  have h2 := congrArg String.data h
  rw [data_code_append, show ("query".data : List Char) = ['q', 'u', 'e', 'r', 'y'] from rfl] at h2
  injection h2 with hc _
  exact absurd hc (by decide)

theorem dropPreL_code (l : List Char) :
    dropPreL "code=".data ('c' :: 'o' :: 'd' :: 'e' :: '=' :: l) = some l := by
  rw [show ("code=".data : List Char) = ['c', 'o', 'd', 'e', '='] from rfl]
  simp [dropPreL]

theorem hasPre_code_append (s : String) : goHasPre ("code=" ++ s) "code=" = true := by
  unfold goHasPre
  rw [data_code_append, dropPreL_code]
  rfl

theorem trimPre_code_append (s : String) : goTrimPre ("code=" ++ s) "code=" = s := by
  unfold goTrimPre
  rw [data_code_append, dropPreL_code]

/-- The flag loop's handling of a `code=`-prefixed token. -/
theorem applyFlag_code (r : Route) (s : String) :
    applyFlag r ("code=" ++ s) =
      match goAtoi s with
      | none => .error "parsing code"
      | some n => .ok { r with Code := n } := by
  unfold applyFlag
  rw [if_neg (code_append_ne_path s), if_neg (code_append_ne_query s),
    if_pos (by rw [hasPre_code_append]), trimPre_code_append]

/-- No flag token ever clears a carry flag that is already set. -/
theorem applyFlag_preserves_carry (r r' : Route) (p : String)
    (h : applyFlag r p = .ok r') :
    (r.CarryPath = true → r'.CarryPath = true) ∧
    (r.CarryQuery = true → r'.CarryQuery = true) := by
  unfold applyFlag at h
  split_ifs at h with h1 h2 h3
  · cases h
    exact ⟨fun _ => rfl, fun hq => hq⟩
  · cases h
    exact ⟨fun hp => hp, fun _ => rfl⟩
  · cases hg : goAtoi (goTrimPre p "code=") <;> rw [hg] at h
    · exact absurd h (by simp)
    · cases h
      exact ⟨fun hp => hp, fun hq => hq⟩
  · cases h
    exact ⟨fun hp => hp, fun hq => hq⟩

theorem applyFlags_preserves_carry (ps : List String) (r r' : Route)
    (h : applyFlags r ps = .ok r') :
    (r.CarryPath = true → r'.CarryPath = true) ∧
    (r.CarryQuery = true → r'.CarryQuery = true) := by
  induction ps generalizing r with
  | nil =>
    cases h
    exact ⟨fun hp => hp, fun hq => hq⟩
  | cons p ps ih =>
    unfold applyFlags at h
    cases ha : applyFlag r p with
    | error e =>
      rw [ha] at h
      exact absurd h (by simp)
    | ok r1 =>
      rw [ha] at h
      have hstep := applyFlag_preserves_carry r r1 p ha
      have hrest := ih r1 h
      exact ⟨fun hp => hrest.1 (hstep.1 hp), fun hq => hrest.2 (hstep.2 hq)⟩

/-- A literal `path` token anywhere in the flag list sets `CarryPath`. -/
theorem applyFlags_path_mem (ps : List String) (r r' : Route)
    (h : applyFlags r ps = .ok r') (hm : "path" ∈ ps) : r'.CarryPath = true := by
  induction ps generalizing r with
  | nil => cases hm
  | cons p ps ih =>
    unfold applyFlags at h
    cases ha : applyFlag r p with
    | error e =>
      rw [ha] at h
      exact absurd h (by simp)
    | ok r1 =>
      rw [ha] at h
      rcases List.mem_cons.mp hm with he | ht
      · subst he
        have h1 : r1.CarryPath = true := by
          rw [show applyFlag r "path" = .ok { r with CarryPath := true } from rfl] at ha
          cases ha
          rfl
        exact (applyFlags_preserves_carry ps r1 r' h).1 h1
      · exact ih r1 h ht

/-- A literal `query` token anywhere in the flag list sets `CarryQuery`. -/
theorem applyFlags_query_mem (ps : List String) (r r' : Route)
    (h : applyFlags r ps = .ok r') (hm : "query" ∈ ps) : r'.CarryQuery = true := by
  induction ps generalizing r with
  | nil => cases hm
  | cons p ps ih =>
    unfold applyFlags at h
    cases ha : applyFlag r p with
    | error e =>
      rw [ha] at h
      exact absurd h (by simp)
    | ok r1 =>
      rw [ha] at h
      rcases List.mem_cons.mp hm with he | ht
      · subst he
        have h1 : r1.CarryQuery = true := by
          rw [show applyFlag r "query" = .ok { r with CarryQuery := true } from rfl] at ha
          cases ha
          rfl
        exact (applyFlags_preserves_carry ps r1 r' h).2 h1
      · exact ih r1 h ht

/-- A `code=` token whose integer part does not parse makes the whole flag
loop fail, wherever it occurs. -/
theorem applyFlags_code_err (ps : List String) (s : String) (r : Route)
    (hm : ("code=" ++ s) ∈ ps) (hbad : goAtoi s = none) :
    ∀ r', applyFlags r ps ≠ .ok r' := by
  induction ps generalizing r with
  | nil => cases hm
  | cons p ps ih =>
    intro r' h
    unfold applyFlags at h
    rcases List.mem_cons.mp hm with he | ht
    · rw [← he, applyFlag_code, hbad] at h
      exact absurd h (by simp)
    · cases ha : applyFlag r p with
      | error e =>
        rw [ha] at h
        exact absurd h (by simp)
      | ok r1 =>
        rw [ha] at h
        exact ih r1 ht r' h

theorem applyFlags_append (ps qs : List String) (r : Route) :
    applyFlags r (ps ++ qs) =
      match applyFlags r ps with
      | .error e => .error e
      | .ok r1 => applyFlags r1 qs := by
  induction ps generalizing r with
  | nil => rfl
  | cons p ps ih =>
    show (match applyFlag r p with
          | Except.error e => (Except.error e : Except String Route)
          | Except.ok r1 => applyFlags r1 (ps ++ qs)) = _
    cases ha : applyFlag r p with
    | error e => simp [applyFlags, ha]
    | ok r1 => simp [applyFlags, ha, ih r1]

/-- A trailing `code=<s>` flag token with `Atoi s = n` leaves the final
status code at exactly `n`. -/
theorem applyFlags_code_last (fs : List String) (s : String) (n : Int) (r0 r : Route)
    (hs : goAtoi s = some n)
    (h : applyFlags r0 (fs ++ ["code=" ++ s]) = .ok r) : r.Code = n := by
  rw [applyFlags_append] at h
  cases hf : applyFlags r0 fs with
  | error e =>
    rw [hf] at h
    exact absurd h (by simp)
  | ok r1 =>
    rw [hf] at h
    unfold applyFlags at h
    rw [applyFlag_code, hs] at h
    have h2 : Except.ok { r1 with Code := n } = Except.ok r := h
    cases h2
    rfl

/-- C8: semantics of the tokens after pattern and destination — no flag
tokens leaves the defaults `302 / false / false`; a literal `path` / `query`
token sets the respective carry flag; a `code=<txt>` token with unparseable
`<txt>` fails the whole parse; a parseable `code=<txt>` sets the status code
to the parsed integer; any other token is silently ignored. -/
theorem c8_flag_token_semantics :
    (∀ p0 p1 r, NewRouteFromParts [p0, p1] = .ok r →
      r.Code = 302 ∧ r.CarryPath = false ∧ r.CarryQuery = false) ∧
    (∀ p0 p1 fs r, NewRouteFromParts (p0 :: p1 :: fs) = .ok r →
      ("path" ∈ fs → r.CarryPath = true) ∧ ("query" ∈ fs → r.CarryQuery = true)) ∧
    (∀ p0 p1 fs s, ("code=" ++ s) ∈ fs → goAtoi s = none →
      ∀ r, NewRouteFromParts (p0 :: p1 :: fs) ≠ .ok r) ∧
    (∀ p0 p1 fs s n r, goAtoi s = some n →
      NewRouteFromParts (p0 :: p1 :: (fs ++ ["code=" ++ s])) = .ok r → r.Code = n) ∧
    (∀ r s, s ≠ "path" → s ≠ "query" → goHasPre s "code=" = false →
      applyFlag r s = .ok r) := by
  refine ⟨?_, ?_, ?_, ?_, ?_⟩
  · intro p0 p1 r h
    simp only [NewRouteFromParts] at h
    cases hd : parseDest p1 with
    | none =>
      rw [hd] at h
      exact absurd h (by simp)
    | some u =>
      rw [hd] at h
      have h2 : Except.ok (⟨p0, u, 302, false, false⟩ : Route) = Except.ok r := h
      cases h2
      exact ⟨rfl, rfl, rfl⟩
  · intro p0 p1 fs r h
    simp only [NewRouteFromParts] at h
    cases hd : parseDest p1 with
    | none =>
      rw [hd] at h
      exact absurd h (by simp)
    | some u =>
      rw [hd] at h
      exact ⟨fun hm => applyFlags_path_mem fs _ r h hm,
        fun hm => applyFlags_query_mem fs _ r h hm⟩
  · intro p0 p1 fs s hm hbad r h
    simp only [NewRouteFromParts] at h
    cases hd : parseDest p1 with
    | none =>
      rw [hd] at h
      exact absurd h (by simp)
    | some u =>
      rw [hd] at h
      exact applyFlags_code_err fs s _ hm hbad r h
  · intro p0 p1 fs s n r hs h
    simp only [NewRouteFromParts] at h
    cases hd : parseDest p1 with
    | none =>
      rw [hd] at h
      exact absurd h (by simp)
    | some u =>
      rw [hd] at h
      exact applyFlags_code_last fs s n _ r hs h
  · intro r s h1 h2 h3
    unfold applyFlag
    rw [if_neg h1, if_neg h2, if_neg (by simp [h3])]

/-- C8 witness: a spec with no flags keeps the defaults; `path` among the
flags sets carry-path with `other` ignored; an unparseable `code=xyz`
fails. -/
theorem c8_flag_token_semantics_witness :
    ((⟨"a.com/x", ⟨"https", "example.com", "", ""⟩, 302, false, false⟩ : Route).Code = 302 ∧
      (⟨"a.com/x", ⟨"https", "example.com", "", ""⟩, 302, false, false⟩ : Route).CarryPath = false ∧
      (⟨"a.com/x", ⟨"https", "example.com", "", ""⟩, 302, false, false⟩ : Route).CarryQuery = false) ∧
    (⟨"a.com/x", ⟨"https", "example.com", "", ""⟩, 307, true, false⟩ : Route).CarryPath = true ∧
    (∀ r, NewRouteFromParts ["a.com/x", "example.com", "code=xyz"] ≠ .ok r) ∧
    applyFlag ⟨"a.com/x", ⟨"https", "example.com", "", ""⟩, 302, false, false⟩ "other" =
      .ok ⟨"a.com/x", ⟨"https", "example.com", "", ""⟩, 302, false, false⟩ :=
  ⟨c8_flag_token_semantics.1 "a.com/x" "example.com"
      ⟨"a.com/x", ⟨"https", "example.com", "", ""⟩, 302, false, false⟩ (by decide),
   (c8_flag_token_semantics.2.1 "a.com/x" "example.com" ["path", "other", "code=307"]
      ⟨"a.com/x", ⟨"https", "example.com", "", ""⟩, 307, true, false⟩ (by decide)).1
      (by decide),
   fun r => c8_flag_token_semantics.2.2.1 "a.com/x" "example.com" ["code=xyz"] "xyz"
      (by decide) (by decide) r,
   c8_flag_token_semantics.2.2.2.2 _ "other" (by decide) (by decide) (by decide)⟩

/-- C10: no range validation of the status code — any integer accepted by
`Atoi` (any 64-bit integer, negative, zero or outside 3xx) becomes the
route's status code verbatim and is emitted as the redirect status. -/
theorem c10_code_not_range_checked (s : String) (n : Int) (h : goAtoi s = some n) :
    NewRouteFromParts ["p", "example.com", "code=" ++ s] =
      .ok ⟨"p", ⟨"https", "example.com", "", ""⟩, n, false, false⟩ ∧
    (RouteExecute ⟨"p", ⟨"https", "example.com", "", ""⟩, n, false, false⟩ "/x" "y=1").2.2 = n := by
  constructor
  · simp only [NewRouteFromParts]
    rw [show parseDest "example.com" = some ⟨"https", "example.com", "", ""⟩ from by decide]
    unfold applyFlags
    rw [applyFlag_code, h]
    rfl
  · rfl

/-- C10 witness: `code=-7` parses and redirects with status -7. -/
theorem c10_code_not_range_checked_witness :
    NewRouteFromParts ["p", "example.com", "code=" ++ "-7"] =
      .ok ⟨"p", ⟨"https", "example.com", "", ""⟩, -7, false, false⟩ ∧
    (RouteExecute ⟨"p", ⟨"https", "example.com", "", ""⟩, -7, false, false⟩ "/x" "y=1").2.2 = -7 :=
  c10_code_not_range_checked "-7" (-7) (by decide)

end Redirector
